import Mathlib

/-!
The techNotes-MERN front end: the re-authenticating base query and the notes
endpoints.

A shallow embedding of

* `frontend/src/app/api/apiSlice.js` (`prepareHeaders`, `baseQueryWithReauth`), and
* `frontend/src/features/notes/notesApiSlice.js` (`sortComparer`, `validateStatus`,
  `transformResponse`, `providesTags`, the three `invalidatesTags`),

followed by the properties proved about them.

JavaScript values are embedded as a small value type; asynchronous calls are
sequenced, so `await f(x)` becomes a state-passing call; a thrown `TypeError`
(a rejected promise, for the `async` function) is an `Except.error`.
-/

set_option autoImplicit false

/-! ## JavaScript values -/

/-- The values a base query hands back: `undefined`, `null`, booleans, numbers
(integers: HTTP statuses are), strings and plain objects with their own data
properties in insertion order. -/
inductive JsVal where
  | undefined : JsVal
  | null : JsVal
  | bool (b : Bool) : JsVal
  | num (n : Int) : JsVal
  | str (s : String) : JsVal
  | obj (fields : List (String × JsVal)) : JsVal

/-- The one error the embedded code can raise. -/
inductive JsError where
  | TypeError : JsError
  deriving DecidableEq, Repr

namespace JsVal

/-- First binding of key `k` among the properties `fs`. -/
def lookupField (k : String) : List (String × JsVal) → Option JsVal
  | [] => none
  | (k', v) :: fs => if k' = k then some v else lookupField k fs

/-- Property write `o[k] = v` on the properties `fs`: an existing property keeps
its place and takes the new value, a new property goes last. -/
def setField (k : String) (v : JsVal) : List (String × JsVal) → List (String × JsVal)
  | [] => [(k, v)]
  | (k', v') :: fs => if k' = k then (k', v) :: fs else (k', v') :: setField k v fs

/-- Whether the value is `undefined` or `null`. -/
def isNullish : JsVal → Bool
  | undefined => true
  | null => true
  | _ => false

/-- JavaScript `ToBoolean`. -/
def truthy : JsVal → Bool
  | undefined => false
  | null => false
  | bool b => b
  | num n => n != 0
  | str s => s != ""
  | obj _ => true

/-- Property read `v.k` on a value that is not nullish, for a data property name
`k` (the source reads `error`, `status`, `data`, `isError`, `id`): the own
property of an object, `undefined` when it is missing or `v` is a primitive. -/
def get (v : JsVal) (k : String) : JsVal :=
  match v with
  | obj fs => (lookupField k fs).getD undefined
  | _ => undefined

/-- Whether `k` is an own property of the value: `Object.hasOwn(v, k)` on an
object, `false` on the rest. -/
def hasOwn (v : JsVal) (k : String) : Bool :=
  match v with
  | obj fs => (lookupField k fs).isSome
  | _ => false

/-- Property read `v.k` as JavaScript evaluates it: a `TypeError` on `undefined`
and `null`. -/
def getProp (v : JsVal) (k : String) : Except JsError JsVal :=
  if v.isNullish then .error .TypeError else .ok (v.get k)

/-- Optional chaining `v?.k`: `undefined` on a nullish `v`, else `v.k`. -/
def optGet (v : JsVal) (k : String) : JsVal :=
  if v.isNullish then undefined else v.get k

/-- Strict-mode property assignment `v.k = x` (the sources are ES modules): on an
object the property is written; on `undefined`, `null` and on a primitive it
raises a `TypeError`. -/
def assign (v : JsVal) (k : String) (x : JsVal) : Except JsError JsVal :=
  match v with
  | obj fs => .ok (obj (setField k x fs))
  | _ => .error .TypeError

/-- Strict equality `v === n` with a number literal `n`. -/
def strictEqNum (v : JsVal) (n : Int) : Bool :=
  match v with
  | num m => m == n
  | _ => false

/-- JavaScript `ToString`, as a template literal applies it. -/
def toJsString : JsVal → String
  | undefined => "undefined"
  | null => "null"
  | bool true => "true"
  | bool false => "false"
  | num n => toString n
  | str s => s
  | obj _ => "[object Object]"

/-- Object spread `{ ...v }`: a copy of the own enumerable properties of `v`;
the characters of a string under their indices; nothing for the other
primitives and for nullish values. -/
def spread : JsVal → JsVal
  | obj fs => obj fs
  | str s => obj (s.toList.enum.map (fun p => (toString p.1, str (String.singleton p.2))))
  | _ => obj []

end JsVal

/-! ## `app/api/apiSlice.js` -/

/-- The `auth` slice of the store: the access token, or a falsy value. -/
structure AuthState where
  token : JsVal

/-- What `getState()` returns, as far as the source reads it. -/
structure RootState where
  auth : AuthState

/-- The method `headers.set(name, value)` of the `Headers` object handed to
`prepareHeaders`, a platform interface that is not part of the sources: it
changes the headers `H`, or throws on a name or value it does not accept. -/
abbrev HeadersSet (H : Type) := String → String → H → Except JsError H

/-- The `prepareHeaders` of `fetchBaseQuery` (apiSlice.js, lines 14-26): reads
`getState().auth.token` and, when it is truthy, calls
`headers.set("authorization", ...)` with the template literal built from it;
then returns the headers. -/
def prepareHeaders {H : Type} (set : HeadersSet H) (headers : H) (getState : RootState) :
    Except JsError H :=
  let token := getState.auth.token
  if token.truthy then
    set "authorization" ("Bearer " ++ token.toJsString) headers
  else
    .ok headers

/-- A headers object for concrete runs, which records the calls of `set` made on
it: the names and values, in order. -/
def recordSet : HeadersSet (List (String × String)) := fun name value calls =>
  .ok (calls ++ [(name, value)])

/-- Everything a base query can depend on and change: the store and, in `env`,
what lies outside it (the server, the network). -/
structure World (ω : Type) where
  state : RootState
  env : ω

/-- A base query `baseQuery(args, api, extraOptions)`: `api` is the handle on the
world; the call returns its result object and the world it leaves behind. -/
abbrev BaseQuery (ω : Type) := JsVal → JsVal → World ω → JsVal × World ω

/-- What `baseQueryWithReauth` does that can be observed from outside: an
invocation of `baseQuery` (its `args`, `extraOptions` and the world it runs
against) or `api.dispatch(setCredentials(payload))`. -/
inductive Event (ω : Type) where
  | query (args extraOptions : JsVal) (w : World ω) : Event ω
  | dispatchSetCredentials (payload : JsVal) : Event ω

/-- Whether the event is an invocation of `baseQuery`. -/
def Event.isQuery {ω : Type} : Event ω → Bool
  | .query _ _ _ => true
  | .dispatchSetCredentials _ => false

/-- The `args` of an invocation of `baseQuery`. -/
def Event.args? {ω : Type} : Event ω → Option JsVal
  | .query a _ _ => some a
  | .dispatchSetCredentials _ => none

/-- The outcome of one call: the value the promise resolves to (or the error it
rejects with), the events in the order they happened, and the final world. -/
structure Outcome (ω : Type) where
  result : Except JsError JsVal
  trace : List (Event ω)
  world : World ω

/-- The arguments of the `baseQuery` invocations of a trace, in order. -/
def queryArgs {ω : Type} (t : List (Event ω)) : List JsVal :=
  t.filterMap Event.args?

/-- The path of the refresh request (apiSlice.js, line 42). -/
def refreshArgs : JsVal := .str "/auth/refresh"

/-- The message written on a 403 refresh failure (apiSlice.js, line 55). -/
def expiredMessage : JsVal := .str "Your login has expired."

/-- The statement `refreshResult.error.data.message = "Your login has expired."`
(apiSlice.js, line 55), with the object it changes returned in place of the
mutation. -/
def annotateExpired (refreshResult : JsVal) : Except JsError JsVal := do
  let error ← refreshResult.getProp "error"
  let data ← error.getProp "data"
  let data' ← data.assign "message" expiredMessage
  let error' ← error.assign "data" data'
  refreshResult.assign "error" error'

/-- The test `result?.error?.status === 403` (apiSlice.js, lines 38 and 54). -/
def statusIs403 (result : JsVal) : Bool :=
  ((result.optGet "error").optGet "status").strictEqNum 403

/-- The query wrapper `baseQueryWithReauth` (apiSlice.js, lines 30-62).
`baseQuery` is the wrapped base query; `setCredentials` is the reducer case of
the imported action creator (features/auth/authSlice), so
`api.dispatch(setCredentials(p))` turns the store state `s` into
`setCredentials p s`. -/
def baseQueryWithReauth {ω : Type} (baseQuery : BaseQuery ω)
    (setCredentials : JsVal → RootState → RootState)
    (args extraOptions : JsVal) (api : World ω) : Outcome ω :=
  let r1 := baseQuery args extraOptions api
  let result := r1.1
  let t1 : List (Event ω) := [.query args extraOptions api]
  if statusIs403 result then
    let r2 := baseQuery refreshArgs extraOptions r1.2
    let refreshResult := r2.1
    let t2 := t1 ++ [.query refreshArgs extraOptions r1.2]
    if (refreshResult.optGet "data").truthy then
      let payload := (refreshResult.get "data").spread
      let w3 : World ω := { r2.2 with state := setCredentials payload r2.2.state }
      let r3 := baseQuery args extraOptions w3
      { result := .ok r3.1
        trace := t2 ++ [.dispatchSetCredentials payload, .query args extraOptions w3]
        world := r3.2 }
    else if statusIs403 refreshResult then
      { result := annotateExpired refreshResult, trace := t2, world := r2.2 }
    else
      { result := .ok refreshResult, trace := t2, world := r2.2 }
  else
    { result := .ok result, trace := t1, world := r1.2 }

/-- Modelled from the spec: `setCredentials` of features/auth/authSlice, which is
not among the sources. The spec has the refresh response return
`{ <access-token-field>: <token> }` and the new credential published to the
shared session state: the token found under the field `tokenField` of the
payload becomes `auth.token`. -/
def setCredentials (tokenField : String) (payload : JsVal) (s : RootState) : RootState :=
  { s with auth := { s.auth with token := payload.get tokenField } }

/-- The refresh invocation of a call that reaches it: `baseQuery("/auth/refresh",
api, extraOptions)` in the world the first attempt left behind. -/
def refreshCall {ω : Type} (baseQuery : BaseQuery ω) (args extraOptions : JsVal)
    (api : World ω) : JsVal × World ω :=
  baseQuery refreshArgs extraOptions (baseQuery args extraOptions api).2

/-- The payload `{ ...refreshResult.data }` handed to `setCredentials`. -/
def refreshPayload {ω : Type} (baseQuery : BaseQuery ω) (args extraOptions : JsVal)
    (api : World ω) : JsVal :=
  ((refreshCall baseQuery args extraOptions api).1.get "data").spread

/-- The world after the refresh with the credentials of the refresh response
published to the store. -/
def retryWorld {ω : Type} (baseQuery : BaseQuery ω)
    (setCredentials : JsVal → RootState → RootState) (args extraOptions : JsVal)
    (api : World ω) : World ω :=
  { state := setCredentials (refreshPayload baseQuery args extraOptions api)
      (refreshCall baseQuery args extraOptions api).2.state
    env := (refreshCall baseQuery args extraOptions api).2.env }

/-- A scripted base query, for concrete runs: `env` holds the results still to be
handed out; each invocation hands out the next one (`undefined` once none is
left), whatever its arguments. -/
def scriptedQuery : BaseQuery (List JsVal) := fun _ _ w =>
  match w.env with
  | [] => (.undefined, w)
  | r :: rs => (r, { w with env := rs })

/-- An error result `{ error: { status: 403, data } }`. -/
def forbidden (data : JsVal) : JsVal :=
  .obj [("error", .obj [("status", .num 403), ("data", data)])]

/-- A world for concrete runs: the store holds the token `token`, the scripted
results are `results`. -/
def scriptedWorld (token : JsVal) (results : List JsVal) : World (List JsVal) :=
  { state := { auth := { token := token } }, env := results }

/-! ## `features/notes/notesApiSlice.js` -/

/-- A note as the list endpoint returns it and as the cache holds it: the storage
identifier `_id`, the canonical `id` (`undefined` until it is written), the
boolean `completed` flag and the remaining properties. -/
structure Note where
  _id : String
  id : JsVal
  completed : Bool
  fields : List (String × JsVal)

/-- The `sortComparer` of `notesAdapter` (notesApiSlice.js, lines 19-20). -/
def notesAdapter.sortComparer (a b : Note) : Int :=
  if a.completed = b.completed then 0 else if a.completed then 1 else -1

/-- The normalized state of the entity adapter: `{ ids, entities }`, the
`entities` object as its properties in insertion order (the order JavaScript
lists keys that are not array indices, as the identifiers of the storage are). -/
structure EntityState where
  ids : List JsVal
  entities : List (String × Note)

/-- The value of `notesAdapter.getInitialState()` (notesApiSlice.js, line 24). -/
def initialState : EntityState := { ids := [], entities := [] }

/-- Modelled from the spec: the default `selectId` of the entity adapter, library
code that is not among the sources: the canonical identifier, `entity.id`. -/
def notesAdapter.selectId (n : Note) : JsVal := n.id

/-- Modelled from the spec: one step of the stable sort inside `setAll`, the
insertion of `x` in front of the first element that does not sort before it by
the comparator `cmp`. -/
def notesAdapter.orderedInsert (cmp : Note → Note → Int) (x : Note) : List Note → List Note
  | [] => [x]
  | y :: ys => if cmp x y ≤ 0 then x :: y :: ys else y :: notesAdapter.orderedInsert cmp x ys

/-- Modelled from the spec: the sort inside `setAll`, a stable sort by the
comparator `cmp` (what `Array.prototype.sort` is), here by insertion. -/
def notesAdapter.stableSort (cmp : Note → Note → Int) (l : List Note) : List Note :=
  l.foldr (notesAdapter.orderedInsert cmp) []

/-- Modelled from the spec: the write `entities[key] = n` inside `setAll`. -/
def notesAdapter.setEntity (key : String) (n : Note) : List (String × Note) → List (String × Note)
  | [] => [(key, n)]
  | (k, m) :: es => if k = key then (k, n) :: es else (k, m) :: notesAdapter.setEntity key n es

/-- The read `entities[key]`. -/
def EntityState.entity? (st : EntityState) (key : String) : Option Note :=
  (st.entities.find? (fun p => p.1 == key)).map Prod.snd

/-- The entities of the collection in the order the `entities` object lists
them: `Object.values(state.entities)`. -/
def EntityState.values (st : EntityState) : List Note :=
  st.entities.map Prod.snd

/-- Modelled from the spec: `setAll` of the entity adapter, library code that is
not among the sources. The collection is rebuilt from scratch, the previous
state discarded: every new entity is stored under its id, a later entity with
the same id taking the place of the earlier one, so that `entities` maps each
id to one entity; `ids` is the ordered set of the ids of the stored entities,
in the order a stable sort by `sortComparer` puts these entities. -/
def notesAdapter.setAll (_state : EntityState) (newEntities : List Note) : EntityState :=
  let entities := newEntities.foldl
    (fun es n => notesAdapter.setEntity (notesAdapter.selectId n).toJsString n es) []
  { ids := (notesAdapter.stableSort notesAdapter.sortComparer
      (entities.map Prod.snd)).map notesAdapter.selectId
    entities := entities }

/-- The elements of `l` in the order in which they first occur, each once. -/
def firstOccurrences (l : List String) : List String :=
  l.foldl (fun seen k => if k ∈ seen then seen else seen ++ [k]) []

/-- The `transformResponse` of `getNotes` (notesApiSlice.js, lines 39-46): every
note gets `note.id = note._id`, then the collection is built by `setAll`. -/
def getNotes.transformResponse (responseData : List Note) : EntityState :=
  let loadedNotes := responseData.map (fun note => { note with id := .str note._id })
  notesAdapter.setAll initialState loadedNotes

/-- A transport response, as far as `validateStatus` reads it. -/
structure Response where
  status : Int

/-- The `validateStatus` of the `getNotes` query (notesApiSlice.js, lines 33-35):
`response.status === 200 && !result.isError`, the right operand evaluated only
when the left one holds. -/
def getNotes.validateStatus (response : Response) (result : JsVal) : Except JsError Bool :=
  if response.status = 200 then do
    let isError ← result.getProp "isError"
    pure (!isError.truthy)
  else
    pure false

/-- A cache tag `{ type, id }`. -/
structure Tag where
  type : String
  id : JsVal

/-- The tag of the whole list, `{ type: "Note", id: "LIST" }`. -/
def listTag : Tag := { type := "Note", id := .str "LIST" }

/-- The `providesTags` of `getNotes` (notesApiSlice.js, lines 49-60). `result` is
the collection built by `transformResponse`, or nothing when the query failed;
the `ids` of a collection are an array, which is truthy even when empty. -/
def getNotes.providesTags (result : Option EntityState) (_error _arg : JsVal) : List Tag :=
  match result with
  | some r => listTag :: r.ids.map (fun id => { type := "Note", id := id })
  | none => [listTag]

/-- The `invalidatesTags` of `addNewNote` (notesApiSlice.js, line 72): a fixed
array, not a function of the result, the error and the argument. -/
def addNewNote.invalidatesTags : List Tag := [listTag]

/-- The `invalidatesTags` of `updateNote` (notesApiSlice.js, line 85). -/
def updateNote.invalidatesTags (_result _error arg : JsVal) : Except JsError (List Tag) := do
  let id ← arg.getProp "id"
  pure [{ type := "Note", id := id }]

/-- The `invalidatesTags` of `deleteNote` (notesApiSlice.js, line 94). -/
def deleteNote.invalidatesTags (_result _error arg : JsVal) : Except JsError (List Tag) := do
  let id ← arg.getProp "id"
  pure [{ type := "Note", id := id }]

/-! ## Properties of `baseQueryWithReauth` -/

theorem queryArgs_nil {ω : Type} : queryArgs ([] : List (Event ω)) = [] := rfl

theorem queryArgs_cons_query {ω : Type} (a e : JsVal) (w : World ω) (t : List (Event ω)) :
    queryArgs (Event.query a e w :: t) = a :: queryArgs t := by
  simp [queryArgs, List.filterMap_cons, Event.args?]

theorem queryArgs_cons_dispatch {ω : Type} (p : JsVal) (t : List (Event ω)) :
    queryArgs (Event.dispatchSetCredentials p :: t) = queryArgs t := by
  simp [queryArgs, List.filterMap_cons, Event.args?]

/-- The three ways a call can go, with the whole outcome of each: the first
attempt is final; the refresh failed; the refresh succeeded and the retry is
final. -/
theorem baseQueryWithReauth_cases {ω : Type} (baseQuery : BaseQuery ω)
    (setCredentials : JsVal → RootState → RootState) (args extraOptions : JsVal)
    (api : World ω) :
    (statusIs403 (baseQuery args extraOptions api).1 = false ∧
      baseQueryWithReauth baseQuery setCredentials args extraOptions api =
        { result := .ok (baseQuery args extraOptions api).1
          trace := [.query args extraOptions api]
          world := (baseQuery args extraOptions api).2 }) ∨
    (statusIs403 (baseQuery args extraOptions api).1 = true ∧
      ((refreshCall baseQuery args extraOptions api).1.optGet "data").truthy = false ∧
      baseQueryWithReauth baseQuery setCredentials args extraOptions api =
        { result :=
            if statusIs403 (refreshCall baseQuery args extraOptions api).1 then
              annotateExpired (refreshCall baseQuery args extraOptions api).1
            else .ok (refreshCall baseQuery args extraOptions api).1
          trace := [.query args extraOptions api,
            .query refreshArgs extraOptions (baseQuery args extraOptions api).2]
          world := (refreshCall baseQuery args extraOptions api).2 }) ∨
    (statusIs403 (baseQuery args extraOptions api).1 = true ∧
      ((refreshCall baseQuery args extraOptions api).1.optGet "data").truthy = true ∧
      baseQueryWithReauth baseQuery setCredentials args extraOptions api =
        { result := .ok (baseQuery args extraOptions
            (retryWorld baseQuery setCredentials args extraOptions api)).1
          trace := [.query args extraOptions api,
            .query refreshArgs extraOptions (baseQuery args extraOptions api).2,
            .dispatchSetCredentials (refreshPayload baseQuery args extraOptions api),
            .query args extraOptions (retryWorld baseQuery setCredentials args extraOptions api)]
          world := (baseQuery args extraOptions
            (retryWorld baseQuery setCredentials args extraOptions api)).2 }) := by
  cases h1 : statusIs403 (baseQuery args extraOptions api).1 with
  | false =>
    left
    refine ⟨rfl, ?_⟩
    simp [baseQueryWithReauth, h1]
  | true =>
    right
    cases h2 : ((refreshCall baseQuery args extraOptions api).1.optGet "data").truthy with
    | false =>
      left
      refine ⟨rfl, rfl, ?_⟩
      simp only [refreshCall] at h2
      cases h3 : statusIs403 (refreshCall baseQuery args extraOptions api).1 <;>
        simp only [refreshCall] at h3 <;>
        simp [baseQueryWithReauth, h1, h2, h3, refreshCall]
    | true =>
      right
      refine ⟨rfl, rfl, ?_⟩
      simp only [refreshCall] at h2
      simp [baseQueryWithReauth, h1, h2, refreshCall, retryWorld, refreshPayload]

/-- C1: whatever `baseQuery` does, a call whose first attempt returns a 403 error
makes the refresh invocation, with the argument `"/auth/refresh"`, exactly once,
as its second invocation, and re-executes the original `args` at most once,
after it; and every call makes one of the three invocation sequences `[args]`,
`[args, "/auth/refresh"]`, `[args, "/auth/refresh", args]`: at most one refresh,
at most one retry, at most three invocations. -/
theorem baseQueryWithReauth_one_refresh_one_retry {ω : Type} (baseQuery : BaseQuery ω)
    (setCredentials : JsVal → RootState → RootState) (args extraOptions : JsVal)
    (api : World ω) :
    (statusIs403 (baseQuery args extraOptions api).1 = true →
      queryArgs (baseQueryWithReauth baseQuery setCredentials args extraOptions api).trace
          = [args, refreshArgs] ∨
      queryArgs (baseQueryWithReauth baseQuery setCredentials args extraOptions api).trace
          = [args, refreshArgs, args]) ∧
    (queryArgs (baseQueryWithReauth baseQuery setCredentials args extraOptions api).trace
        = [args] ∨
      queryArgs (baseQueryWithReauth baseQuery setCredentials args extraOptions api).trace
        = [args, refreshArgs] ∨
      queryArgs (baseQueryWithReauth baseQuery setCredentials args extraOptions api).trace
        = [args, refreshArgs, args]) ∧
    ((baseQueryWithReauth baseQuery setCredentials args extraOptions api).trace.filter
      Event.isQuery).length ≤ 3 := by
  rcases baseQueryWithReauth_cases baseQuery setCredentials args extraOptions api with
    ⟨h1, h⟩ | ⟨h1, _, h⟩ | ⟨h1, _, h⟩ <;>
    simp [h, h1, queryArgs_cons_query, queryArgs_cons_dispatch, queryArgs_nil, Event.isQuery]

/-- C1, a run: the first attempt and the retry both return a 403 error, the
refresh succeeds; the invocations are `args`, `"/auth/refresh"`, `args`. -/
theorem baseQueryWithReauth_one_refresh_one_retry_witness :
    statusIs403 (scriptedQuery (.str "/notes") .undefined
      (scriptedWorld (.str "old")
        [forbidden .null, .obj [("data", .obj [("accessToken", .str "new")])],
          forbidden .null])).1 = true ∧
    queryArgs (baseQueryWithReauth scriptedQuery (setCredentials "accessToken")
      (.str "/notes") .undefined
      (scriptedWorld (.str "old")
        [forbidden .null, .obj [("data", .obj [("accessToken", .str "new")])],
          forbidden .null])).trace = [.str "/notes", refreshArgs, .str "/notes"] :=
  ⟨rfl, ((baseQueryWithReauth_one_refresh_one_retry scriptedQuery
      (setCredentials "accessToken") (.str "/notes") .undefined
      (scriptedWorld (.str "old")
        [forbidden .null, .obj [("data", .obj [("accessToken", .str "new")])],
          forbidden .null])).1 rfl).resolve_left (fun h => nomatch h)⟩

/-- C4: when the first attempt does not return an error whose status is exactly
403, the call returns the result of the first attempt as it is; its only event
is that one invocation of `baseQuery`: no refresh request, no dispatch of
`setCredentials`; and the world is the one the first attempt left behind. -/
theorem baseQueryWithReauth_first_attempt_final {ω : Type} (baseQuery : BaseQuery ω)
    (setCredentials : JsVal → RootState → RootState) (args extraOptions : JsVal)
    (api : World ω) (h : statusIs403 (baseQuery args extraOptions api).1 = false) :
    (baseQueryWithReauth baseQuery setCredentials args extraOptions api).result
      = .ok (baseQuery args extraOptions api).1 ∧
    (baseQueryWithReauth baseQuery setCredentials args extraOptions api).trace
      = [.query args extraOptions api] ∧
    (baseQueryWithReauth baseQuery setCredentials args extraOptions api).world
      = (baseQuery args extraOptions api).2 := by
  rcases baseQueryWithReauth_cases baseQuery setCredentials args extraOptions api with
    ⟨_, h2⟩ | ⟨h1, _⟩ | ⟨h1, _⟩
  · simp [h2]
  · simp [h] at h1
  · simp [h] at h1

/-- C4, a run: a 401 error on the first attempt is returned as it is, after one
invocation. -/
theorem baseQueryWithReauth_first_attempt_final_witness :
    (baseQueryWithReauth scriptedQuery (setCredentials "accessToken") (.str "/notes")
      .undefined (scriptedWorld (.str "old")
        [.obj [("error", .obj [("status", .num 401)])], forbidden .null])).result
      = .ok (.obj [("error", .obj [("status", .num 401)])]) :=
  (baseQueryWithReauth_first_attempt_final scriptedQuery (setCredentials "accessToken")
    (.str "/notes") .undefined (scriptedWorld (.str "old")
      [.obj [("error", .obj [("status", .num 401)])], forbidden .null]) rfl).1

/-- C5: when the first attempt returns a 403 error and the refresh result has a
truthy `data`, the call returns the result of the one re-execution of the
original request, whatever it is (a 403 error included, with no message written
on it): the events are the first attempt, the refresh, the dispatch of
`setCredentials` and the retry, and nothing after the retry. -/
theorem baseQueryWithReauth_retry_final {ω : Type} (baseQuery : BaseQuery ω)
    (setCredentials : JsVal → RootState → RootState) (args extraOptions : JsVal)
    (api : World ω) (h1 : statusIs403 (baseQuery args extraOptions api).1 = true)
    (h2 : ((refreshCall baseQuery args extraOptions api).1.optGet "data").truthy = true) :
    (baseQueryWithReauth baseQuery setCredentials args extraOptions api).result
      = .ok (baseQuery args extraOptions
          (retryWorld baseQuery setCredentials args extraOptions api)).1 ∧
    (baseQueryWithReauth baseQuery setCredentials args extraOptions api).trace
      = [.query args extraOptions api,
          .query refreshArgs extraOptions (baseQuery args extraOptions api).2,
          .dispatchSetCredentials (refreshPayload baseQuery args extraOptions api),
          .query args extraOptions (retryWorld baseQuery setCredentials args extraOptions api)] ∧
    (baseQueryWithReauth baseQuery setCredentials args extraOptions api).world
      = (baseQuery args extraOptions
          (retryWorld baseQuery setCredentials args extraOptions api)).2 := by
  rcases baseQueryWithReauth_cases baseQuery setCredentials args extraOptions api with
    ⟨h3, _⟩ | ⟨_, h3, _⟩ | ⟨_, _, h⟩
  · simp [h1] at h3
  · simp [h2] at h3
  · simp [h]

/-- C5, a run: the retry returns a 403 error again; it is returned as it is, its
`data` still `null`. -/
theorem baseQueryWithReauth_retry_final_witness :
    (baseQueryWithReauth scriptedQuery (setCredentials "accessToken") (.str "/notes")
      .undefined (scriptedWorld (.str "old")
        [forbidden .null, .obj [("data", .obj [("accessToken", .str "new")])],
          forbidden .null])).result = .ok (forbidden .null) :=
  (baseQueryWithReauth_retry_final scriptedQuery (setCredentials "accessToken")
    (.str "/notes") .undefined (scriptedWorld (.str "old")
      [forbidden .null, .obj [("data", .obj [("accessToken", .str "new")])],
        forbidden .null]) rfl rfl).1

/-! ## The header of the retry -/

theorem String.append_left_cancel_of_eq {p a b : String} (h : p ++ a = p ++ b) : a = b := by
  have h2 := congrArg String.data h
  simp only [String.data_append] at h2
  exact String.ext (List.append_cancel_left h2)

/-- C2, as the code has it: when the first attempt returns a 403 error and the
refresh result has a truthy `data`, `setCredentials({ ...refreshResult.data })`
is dispatched before the retry, and the retry runs against a store whose token
is the one that payload carries, whatever the token was before. When that new
token is truthy, `prepareHeaders` on that store makes the call
`headers.set("authorization", "Bearer <new token>")`, whose value is not
`Bearer <stale token>` for any stale token that differs from the new one; when
the payload carries no truthy token, `prepareHeaders` leaves the headers as they
are. -/
theorem baseQueryWithReauth_retry_header {ω H : Type} (baseQuery : BaseQuery ω)
    (tokenField : String) (args extraOptions : JsVal) (api : World ω)
    (set : HeadersSet H) (headers : H)
    (h1 : statusIs403 (baseQuery args extraOptions api).1 = true)
    (h2 : ((refreshCall baseQuery args extraOptions api).1.optGet "data").truthy = true) :
    ∃ (retry : World ω) (newToken : JsVal),
      (baseQueryWithReauth baseQuery (setCredentials tokenField) args extraOptions api).trace
        = [.query args extraOptions api,
            .query refreshArgs extraOptions (baseQuery args extraOptions api).2,
            .dispatchSetCredentials
              ((refreshCall baseQuery args extraOptions api).1.get "data").spread,
            .query args extraOptions retry] ∧
      newToken = (((refreshCall baseQuery args extraOptions api).1.get "data").spread).get
        tokenField ∧
      retry.state.auth.token = newToken ∧
      retry.env = (refreshCall baseQuery args extraOptions api).2.env ∧
      (newToken.truthy = true →
        prepareHeaders set headers retry.state
          = set "authorization" ("Bearer " ++ newToken.toJsString) headers ∧
        ∀ stale : JsVal, stale.toJsString ≠ newToken.toJsString →
          "Bearer " ++ newToken.toJsString ≠ "Bearer " ++ stale.toJsString) ∧
      (newToken.truthy = false → prepareHeaders set headers retry.state = .ok headers) := by
  refine ⟨retryWorld baseQuery (setCredentials tokenField) args extraOptions api,
    (((refreshCall baseQuery args extraOptions api).1.get "data").spread).get tokenField,
    ?_, rfl, rfl, rfl, ?_, ?_⟩
  · rcases baseQueryWithReauth_cases baseQuery (setCredentials tokenField) args extraOptions
      api with ⟨h3, _⟩ | ⟨_, h3, _⟩ | ⟨_, _, h⟩
    · simp [h1] at h3
    · simp [h2] at h3
    · simp [h, refreshPayload]
  · intro ht
    have htok : (retryWorld baseQuery (setCredentials tokenField) args extraOptions
        api).state.auth.token
        = (((refreshCall baseQuery args extraOptions api).1.get "data").spread).get tokenField :=
      rfl
    refine ⟨?_, ?_⟩
    · simp only [prepareHeaders, htok, ht, if_true]
    · intro stale hne heq
      exact hne (String.append_left_cancel_of_eq heq).symm
  · intro ht
    have htok : (retryWorld baseQuery (setCredentials tokenField) args extraOptions
        api).state.auth.token
        = (((refreshCall baseQuery args extraOptions api).1.get "data").spread).get tokenField :=
      rfl
    simp [prepareHeaders, htok, ht]

/-- C2, a run: the store holds the token `old`, the refresh returns
`{ data: { accessToken: "new" } }`; the one call made on the headers of the
retry is `set("authorization", "Bearer new")`. -/
theorem baseQueryWithReauth_retry_header_witness :
    ∃ (retry : World (List JsVal)),
      (baseQueryWithReauth scriptedQuery (setCredentials "accessToken") (.str "/notes")
        .undefined (scriptedWorld (.str "old")
          [forbidden .null, .obj [("data", .obj [("accessToken", .str "new")])],
            .obj [("data", .obj [])]])).trace.getLast?
        = some (.query (.str "/notes") .undefined retry) ∧
      prepareHeaders recordSet [] retry.state = .ok [("authorization", "Bearer new")] := by
  obtain ⟨retry, newToken, htrace, hnew, htok, _, hset, _⟩ :=
    baseQueryWithReauth_retry_header scriptedQuery "accessToken" (.str "/notes") .undefined
      (scriptedWorld (.str "old")
        [forbidden .null, .obj [("data", .obj [("accessToken", .str "new")])],
          .obj [("data", .obj [])]]) recordSet [] rfl rfl
  have hval : newToken = .str "new" := hnew
  subst hval
  exact ⟨retry, by rw [htrace]; rfl, (hset rfl).1⟩

/-- C2, where it fails: the first attempt returns a 403 error and the refresh
returns `{ data: {} }`, a truthy `data` that carries no token. The credentials
are dispatched and the retry is made, against a store whose token is
`undefined`: `prepareHeaders` makes no call on the headers, so the retry carries
no `authorization: Bearer <new token>`. -/
theorem baseQueryWithReauth_retry_without_token :
    statusIs403 (scriptedQuery (.str "/notes") .undefined
      (scriptedWorld (.str "old")
        [forbidden .null, .obj [("data", .obj [])], forbidden .null])).1 = true ∧
    ((refreshCall scriptedQuery (.str "/notes") .undefined
      (scriptedWorld (.str "old")
        [forbidden .null, .obj [("data", .obj [])], forbidden .null])).1.optGet
          "data").truthy = true ∧
    (baseQueryWithReauth scriptedQuery (setCredentials "accessToken") (.str "/notes")
      .undefined (scriptedWorld (.str "old")
        [forbidden .null, .obj [("data", .obj [])], forbidden .null])).trace
      = [.query (.str "/notes") .undefined
          (scriptedWorld (.str "old")
            [forbidden .null, .obj [("data", .obj [])], forbidden .null]),
        .query refreshArgs .undefined
          (scriptedWorld (.str "old") [.obj [("data", .obj [])], forbidden .null]),
        .dispatchSetCredentials (.obj []),
        .query (.str "/notes") .undefined (scriptedWorld .undefined [forbidden .null])] ∧
    prepareHeaders recordSet [] (scriptedWorld .undefined [forbidden .null]).state = .ok [] :=
  ⟨rfl, rfl, rfl, rfl⟩

/-! ## The refresh that fails with a 403 error -/

theorem JsVal.lookupField_setField (k : String) (v : JsVal) (fs : List (String × JsVal)) :
    JsVal.lookupField k (JsVal.setField k v fs) = some v := by
  induction fs with
  | nil => simp [JsVal.setField, JsVal.lookupField]
  | cons p fs ih =>
    obtain ⟨k', v'⟩ := p
    by_cases hk : k' = k
    · simp [JsVal.setField, JsVal.lookupField, hk]
    · simp [JsVal.setField, JsVal.lookupField, hk, ih]

theorem JsVal.eq_num_of_strictEqNum {v : JsVal} {n : Int} (h : v.strictEqNum n = true) :
    v = .num n := by
  cases v <;> simp_all [JsVal.strictEqNum]

theorem JsVal.obj_of_optGet_num {v : JsVal} {k : String} {n : Int} (h : v.optGet k = .num n) :
    ∃ fs, v = .obj fs ∧ (JsVal.obj fs).get k = .num n := by
  cases v with
  | obj fs => exact ⟨fs, rfl, by simpa [JsVal.optGet, JsVal.isNullish] using h⟩
  | undefined => simp [JsVal.optGet, JsVal.isNullish] at h
  | null => simp [JsVal.optGet, JsVal.isNullish] at h
  | bool b => simp [JsVal.optGet, JsVal.isNullish, JsVal.get] at h
  | num m => simp [JsVal.optGet, JsVal.isNullish, JsVal.get] at h
  | str s => simp [JsVal.optGet, JsVal.isNullish, JsVal.get] at h

/-- A result that passes the test `result?.error?.status === 403` is an object
whose `error` is an object with `status` the number 403. -/
theorem statusIs403_shape {result : JsVal} (h : statusIs403 result = true) :
    ∃ rfs efs, result = .obj rfs ∧ (JsVal.obj rfs).get "error" = .obj efs ∧
      (JsVal.obj efs).get "status" = .num 403 := by
  have h1 := JsVal.eq_num_of_strictEqNum h
  obtain ⟨efs, he, hs⟩ := JsVal.obj_of_optGet_num h1
  cases result with
  | obj rfs => exact ⟨rfs, efs, rfl, by simpa [JsVal.optGet, JsVal.isNullish] using he, hs⟩
  | undefined => simp [JsVal.optGet, JsVal.isNullish] at he
  | null => simp [JsVal.optGet, JsVal.isNullish] at he
  | bool b => simp [JsVal.optGet, JsVal.isNullish, JsVal.get] at he
  | num m => simp [JsVal.optGet, JsVal.isNullish, JsVal.get] at he
  | str s => simp [JsVal.optGet, JsVal.isNullish, JsVal.get] at he

/-- The assignment of line 55 on a 403 error whose `data` is an object: the
refresh result comes back with `error.data.message` set. -/
theorem annotateExpired_of_object (refreshResult : JsVal) (fields : List (String × JsVal))
    (h403 : statusIs403 refreshResult = true)
    (h : (refreshResult.get "error").get "data" = .obj fields) :
    ∃ annotated, annotateExpired refreshResult = .ok annotated ∧
      ((annotated.get "error").get "data").get "message" = expiredMessage := by
  obtain ⟨rfs, efs, hr, he, _⟩ := statusIs403_shape h403
  subst hr
  rw [he] at h
  refine ⟨.obj (JsVal.setField "error"
    (.obj (JsVal.setField "data" (.obj (JsVal.setField "message" expiredMessage fields)) efs))
    rfs), ?_, ?_⟩
  · simp [annotateExpired, JsVal.getProp, JsVal.isNullish, bind, Except.bind, he, h,
      JsVal.assign]
  · simp [JsVal.get, JsVal.lookupField_setField]

/-- The assignment of line 55 on a 403 error whose `data` is not an object
(missing, `null` or a primitive): a `TypeError`. -/
theorem annotateExpired_of_non_object (refreshResult : JsVal)
    (h403 : statusIs403 refreshResult = true)
    (h : ∀ fields, (refreshResult.get "error").get "data" ≠ .obj fields) :
    annotateExpired refreshResult = .error .TypeError := by
  obtain ⟨rfs, efs, hr, he, _⟩ := statusIs403_shape h403
  subst hr
  rw [he] at h
  cases hd : (JsVal.obj efs).get "data" with
  | obj dfs => exact absurd hd (h dfs)
  | undefined =>
    simp [annotateExpired, JsVal.getProp, JsVal.isNullish, bind, Except.bind, he, hd, JsVal.assign]
  | null =>
    simp [annotateExpired, JsVal.getProp, JsVal.isNullish, bind, Except.bind, he, hd, JsVal.assign]
  | bool b =>
    simp [annotateExpired, JsVal.getProp, JsVal.isNullish, bind, Except.bind, he, hd, JsVal.assign]
  | num n =>
    simp [annotateExpired, JsVal.getProp, JsVal.isNullish, bind, Except.bind, he, hd, JsVal.assign]
  | str s =>
    simp [annotateExpired, JsVal.getProp, JsVal.isNullish, bind, Except.bind, he, hd, JsVal.assign]

/-- When the first attempt returns a 403 error and the refresh result has no
truthy `data` and is a 403 error itself, the call ends with the assignment of
line 55 on the refresh result; the original request is not executed again and
nothing is dispatched. -/
theorem baseQueryWithReauth_refresh_forbidden {ω : Type} (baseQuery : BaseQuery ω)
    (setCredentials : JsVal → RootState → RootState) (args extraOptions : JsVal)
    (api : World ω) (h1 : statusIs403 (baseQuery args extraOptions api).1 = true)
    (h2 : ((refreshCall baseQuery args extraOptions api).1.optGet "data").truthy = false)
    (h3 : statusIs403 (refreshCall baseQuery args extraOptions api).1 = true) :
    (baseQueryWithReauth baseQuery setCredentials args extraOptions api).result
      = annotateExpired (refreshCall baseQuery args extraOptions api).1 ∧
    (baseQueryWithReauth baseQuery setCredentials args extraOptions api).trace
      = [.query args extraOptions api,
          .query refreshArgs extraOptions (baseQuery args extraOptions api).2] := by
  rcases baseQueryWithReauth_cases baseQuery setCredentials args extraOptions api with
    ⟨h4, _⟩ | ⟨_, _, h⟩ | ⟨_, h4, _⟩
  · simp [h1] at h4
  · simp [h, h3]
  · simp [h2] at h4

/-- The refresh fails with a 403 error whose `data` is an object: the call
returns the refresh result with `error.data.message` set to the message. -/
theorem baseQueryWithReauth_expired_object_payload {ω : Type} (baseQuery : BaseQuery ω)
    (setCredentials : JsVal → RootState → RootState) (args extraOptions : JsVal)
    (api : World ω) (fields : List (String × JsVal))
    (h1 : statusIs403 (baseQuery args extraOptions api).1 = true)
    (h2 : ((refreshCall baseQuery args extraOptions api).1.optGet "data").truthy = false)
    (h3 : statusIs403 (refreshCall baseQuery args extraOptions api).1 = true)
    (h4 : ((refreshCall baseQuery args extraOptions api).1.get "error").get "data"
      = .obj fields) :
    ∃ annotated,
      (baseQueryWithReauth baseQuery setCredentials args extraOptions api).result
        = .ok annotated ∧
      ((annotated.get "error").get "data").get "message" = expiredMessage ∧
      queryArgs (baseQueryWithReauth baseQuery setCredentials args extraOptions api).trace
        = [args, refreshArgs] := by
  obtain ⟨hr, ht⟩ := baseQueryWithReauth_refresh_forbidden baseQuery setCredentials args
    extraOptions api h1 h2 h3
  obtain ⟨annotated, ha, hm⟩ := annotateExpired_of_object _ fields h3 h4
  exact ⟨annotated, by rw [hr, ha], hm,
    by rw [ht]; simp [queryArgs_cons_query, queryArgs_nil]⟩

/-- The refresh fails with a 403 error whose `data` is not an object: the call
throws a `TypeError`, after the two invocations. -/
theorem baseQueryWithReauth_expired_non_object_payload {ω : Type} (baseQuery : BaseQuery ω)
    (setCredentials : JsVal → RootState → RootState) (args extraOptions : JsVal)
    (api : World ω)
    (h1 : statusIs403 (baseQuery args extraOptions api).1 = true)
    (h2 : ((refreshCall baseQuery args extraOptions api).1.optGet "data").truthy = false)
    (h3 : statusIs403 (refreshCall baseQuery args extraOptions api).1 = true)
    (h4 : ∀ fields, ((refreshCall baseQuery args extraOptions api).1.get "error").get "data"
      ≠ .obj fields) :
    (baseQueryWithReauth baseQuery setCredentials args extraOptions api).result
      = .error .TypeError ∧
    queryArgs (baseQueryWithReauth baseQuery setCredentials args extraOptions api).trace
      = [args, refreshArgs] := by
  obtain ⟨hr, ht⟩ := baseQueryWithReauth_refresh_forbidden baseQuery setCredentials args
    extraOptions api h1 h2 h3
  exact ⟨by rw [hr, annotateExpired_of_non_object _ h3 h4],
    by rw [ht]; simp [queryArgs_cons_query, queryArgs_nil]⟩

/-- C3, at the input where it fails: the first attempt returns
`{ error: { status: 403, data: { message: "Forbidden" } } }` and the refresh
returns `{ error: { status: 403, data: null } }` (a 403 response with an empty
body). The call does not return the refresh error with the message on it: it
throws a `TypeError`. The original request is not executed a second time. -/
theorem baseQueryWithReauth_expired_null_payload :
    (baseQueryWithReauth scriptedQuery (setCredentials "accessToken") (.str "/notes")
      .undefined (scriptedWorld (.str "old")
        [forbidden (.obj [("message", .str "Forbidden")]), forbidden .null])).result
      = .error .TypeError ∧
    queryArgs (baseQueryWithReauth scriptedQuery (setCredentials "accessToken")
      (.str "/notes") .undefined (scriptedWorld (.str "old")
        [forbidden (.obj [("message", .str "Forbidden")]), forbidden .null])).trace
      = [.str "/notes", refreshArgs] :=
  ⟨rfl, rfl⟩

/-- The same run with an object payload on the refresh error: the message is
written and the refresh error returned. -/
theorem baseQueryWithReauth_expired_object_payload_run :
    (baseQueryWithReauth scriptedQuery (setCredentials "accessToken") (.str "/notes")
      .undefined (scriptedWorld (.str "old")
        [forbidden (.obj [("message", .str "Forbidden")]),
          forbidden (.obj [("message", .str "Forbidden")])])).result
      = .ok (forbidden (.obj [("message", .str "Your login has expired.")])) :=
  rfl

/-! ## The stored entities -/

theorem find_setEntity_same (key : String) (n : Note) (es : List (String × Note)) :
    ((notesAdapter.setEntity key n es).find? (fun p => p.1 == key)).map Prod.snd = some n := by
  induction es with
  | nil => simp [notesAdapter.setEntity]
  | cons p es ih =>
    obtain ⟨k, m⟩ := p
    by_cases hk : k = key
    · simp [notesAdapter.setEntity, hk]
    · simp [notesAdapter.setEntity, hk, List.find?_cons, ih]

theorem find_setEntity_other (key key2 : String) (hne : key ≠ key2) (n : Note)
    (es : List (String × Note)) :
    ((notesAdapter.setEntity key n es).find? (fun p => p.1 == key2)).map Prod.snd
      = (es.find? (fun p => p.1 == key2)).map Prod.snd := by
  induction es with
  | nil => simp [notesAdapter.setEntity, hne]
  | cons p es ih =>
    obtain ⟨k, m⟩ := p
    by_cases hk : k = key
    · subst hk
      simp [notesAdapter.setEntity, List.find?_cons, hne]
    · by_cases hk2 : k = key2
      · subst hk2
        simp [notesAdapter.setEntity, hk, List.find?_cons]
      · simp [notesAdapter.setEntity, hk, List.find?_cons, hk2, ih]

/-- Storing notes none of which has the key `key2` leaves `entities[key2]` as it
was. -/
theorem find_foldl_setEntity_other (key : Note → String) (key2 : String) (l : List Note)
    (hl : ∀ n ∈ l, key n ≠ key2) (es : List (String × Note)) :
    ((l.foldl (fun es n => notesAdapter.setEntity (key n) n es) es).find?
        (fun p => p.1 == key2)).map Prod.snd
      = (es.find? (fun p => p.1 == key2)).map Prod.snd := by
  induction l generalizing es with
  | nil => rfl
  | cons x xs ih =>
    rw [List.foldl_cons, ih (fun n hn => hl n (List.mem_cons_of_mem _ hn)),
      find_setEntity_other _ _ (hl x (List.mem_cons_self _ _))]

/-- After the notes of `l` are stored, `entities[key2]` is a note of `l` with
that key, when `l` has one. -/
theorem find_foldl_setEntity (key : Note → String) (key2 : String) (l : List Note)
    (hl : ∃ n ∈ l, key n = key2) (es : List (String × Note)) :
    ∃ n ∈ l, key n = key2 ∧
      ((l.foldl (fun es n => notesAdapter.setEntity (key n) n es) es).find?
        (fun p => p.1 == key2)).map Prod.snd = some n := by
  induction l generalizing es with
  | nil => obtain ⟨n, hn, _⟩ := hl; cases hn
  | cons x xs ih =>
    by_cases hxs : ∃ n ∈ xs, key n = key2
    · obtain ⟨n, hn, hk, hf⟩ := ih hxs (notesAdapter.setEntity (key x) x es)
      exact ⟨n, List.mem_cons_of_mem _ hn, hk, by rw [List.foldl_cons, hf]⟩
    · have hx : key x = key2 := by
        obtain ⟨n, hn, hk⟩ := hl
        rcases List.mem_cons.mp hn with h | h
        · rw [← h]; exact hk
        · exact absurd ⟨n, h, hk⟩ hxs
      refine ⟨x, List.mem_cons_self _ _, hx, ?_⟩
      rw [List.foldl_cons, find_foldl_setEntity_other key key2 xs
        (fun n hn hk => hxs ⟨n, hn, hk⟩), hx, find_setEntity_same]

theorem mem_setEntity {key : String} {n : Note} {es : List (String × Note)}
    {p : String × Note} (hp : p ∈ notesAdapter.setEntity key n es) : p ∈ es ∨ p = (key, n) := by
  induction es with
  | nil => simpa [notesAdapter.setEntity] using hp
  | cons q es ih =>
    obtain ⟨k, m⟩ := q
    by_cases hk : k = key
    · simp only [notesAdapter.setEntity, hk, if_true, List.mem_cons] at hp
      rcases hp with h | h
      · exact Or.inr h
      · exact Or.inl (List.mem_cons_of_mem _ h)
    · simp only [notesAdapter.setEntity, hk, if_false, List.mem_cons] at hp
      rcases hp with h | h
      · exact Or.inl (h ▸ List.mem_cons_self _ _)
      · rcases ih h with h2 | h2
        · exact Or.inl (List.mem_cons_of_mem _ h2)
        · exact Or.inr h2

/-- Every stored entry is an entry that was there or a note of `l` under its
key. -/
theorem mem_foldl_setEntity (key : Note → String) (l : List Note)
    (es : List (String × Note)) (p : String × Note)
    (hp : p ∈ l.foldl (fun es n => notesAdapter.setEntity (key n) n es) es) :
    p ∈ es ∨ (p.2 ∈ l ∧ p.1 = key p.2) := by
  induction l generalizing es with
  | nil => exact Or.inl hp
  | cons x xs ih =>
    rw [List.foldl_cons] at hp
    rcases ih _ hp with h | ⟨h, hk⟩
    · rcases mem_setEntity h with h2 | h2
      · exact Or.inl h2
      · subst h2
        exact Or.inr ⟨List.mem_cons_self _ _, rfl⟩
    · exact Or.inr ⟨List.mem_cons_of_mem _ h, hk⟩

theorem keys_setEntity (key : String) (n : Note) (es : List (String × Note)) :
    (notesAdapter.setEntity key n es).map Prod.fst
      = if key ∈ es.map Prod.fst then es.map Prod.fst else es.map Prod.fst ++ [key] := by
  induction es with
  | nil => simp [notesAdapter.setEntity]
  | cons q es ih =>
    obtain ⟨k, m⟩ := q
    by_cases hk : k = key
    · simp [notesAdapter.setEntity, hk]
    · have hk2 : ¬ key = k := fun h => hk h.symm
      by_cases hmem : key ∈ es.map Prod.fst
      · simp only [notesAdapter.setEntity, hk, if_false, List.map_cons, ih, hmem, if_true,
          List.mem_cons, or_true]
      · simp only [notesAdapter.setEntity, hk, if_false, List.map_cons, ih, hmem,
          List.mem_cons, hk2, or_self, List.cons_append]

/-- The keys of the stored entries, in order: the keys that were there, then the
keys of `l` that were not, in the order in which they first occur. -/
theorem keys_foldl_setEntity (key : Note → String) (l : List Note)
    (es : List (String × Note)) :
    (l.foldl (fun es n => notesAdapter.setEntity (key n) n es) es).map Prod.fst
      = (l.map key).foldl (fun seen k => if k ∈ seen then seen else seen ++ [k])
          (es.map Prod.fst) := by
  induction l generalizing es with
  | nil => rfl
  | cons x xs ih =>
    rw [List.foldl_cons, ih, keys_setEntity, List.map_cons, List.foldl_cons]

theorem nodup_foldl_firstOccurrences (l seen : List String) (h : seen.Nodup) :
    (l.foldl (fun seen k => if k ∈ seen then seen else seen ++ [k]) seen).Nodup := by
  induction l generalizing seen with
  | nil => exact h
  | cons x xs ih =>
    rw [List.foldl_cons]
    apply ih
    by_cases hx : x ∈ seen
    · simpa [hx] using h
    · simp only [hx, if_false]
      exact List.Nodup.append h (List.nodup_singleton x)
        (by simpa [List.disjoint_singleton] using hx)

theorem setEntity_of_not_mem (key : String) (n : Note) (es : List (String × Note))
    (h : key ∉ es.map Prod.fst) : notesAdapter.setEntity key n es = es ++ [(key, n)] := by
  induction es with
  | nil => rfl
  | cons q es ih =>
    obtain ⟨k, m⟩ := q
    have hk : ¬ k = key := fun hk => h (by simp [hk])
    have h2 : key ∉ es.map Prod.fst := fun hm => h (by simp [List.mem_map.mp hm])
    simp [notesAdapter.setEntity, hk, ih h2]

/-- Notes with pairwise different keys, none of them stored yet, are stored one
after the other. -/
theorem foldl_setEntity_of_nodup (key : Note → String) (l : List Note)
    (es : List (String × Note)) (hl : (l.map key).Nodup)
    (hes : ∀ n ∈ l, key n ∉ es.map Prod.fst) :
    l.foldl (fun es n => notesAdapter.setEntity (key n) n es) es
      = es ++ l.map (fun n => (key n, n)) := by
  induction l generalizing es with
  | nil => simp
  | cons x xs ih =>
    rw [List.map_cons, List.nodup_cons] at hl
    rw [List.foldl_cons, setEntity_of_not_mem _ _ _ (hes x (List.mem_cons_self _ _)), ih _ hl.2]
    · simp
    · intro n hn hmem
      rw [List.map_append, List.mem_append] at hmem
      rcases hmem with h | h
      · exact hes n (List.mem_cons_of_mem _ hn) h
      · simp only [List.map_cons, List.map_nil, List.mem_singleton] at h
        exact hl.1 (h ▸ List.mem_map_of_mem key hn)

/-! ## The collection `transformResponse` builds -/

/-- A note that is not completed goes in front of whatever is there. -/
theorem orderedInsert_not_completed (x : Note) (hx : x.completed = false) (l : List Note) :
    notesAdapter.orderedInsert notesAdapter.sortComparer x l = x :: l := by
  cases l with
  | nil => rfl
  | cons y ys =>
    have hc : notesAdapter.sortComparer x y ≤ 0 := by
      unfold notesAdapter.sortComparer
      rw [hx]
      cases y.completed <;> simp
    simp [notesAdapter.orderedInsert, hc]

/-- A completed note goes behind the notes that are not completed and in front
of the completed ones. -/
theorem orderedInsert_completed (x : Note) (hx : x.completed = true) (todo done : List Note)
    (htodo : ∀ y ∈ todo, y.completed = false) (hdone : ∀ y ∈ done, y.completed = true) :
    notesAdapter.orderedInsert notesAdapter.sortComparer x (todo ++ done)
      = todo ++ x :: done := by
  induction todo with
  | nil =>
    cases done with
    | nil => rfl
    | cons y ys =>
      have hy : y.completed = true := hdone y (List.mem_cons_self _ _)
      simp [notesAdapter.orderedInsert, notesAdapter.sortComparer, hx, hy]
  | cons y ys ih =>
    have hy : y.completed = false := htodo y (List.mem_cons_self _ _)
    have ih2 := ih (fun z hz => htodo z (List.mem_cons_of_mem _ hz))
    simp [notesAdapter.orderedInsert, notesAdapter.sortComparer, hx, hy, ih2]

/-- The stable sort by `sortComparer` puts the notes that are not completed
first and the completed ones after them, each group in the order of the input. -/
theorem stableSort_sortComparer (l : List Note) :
    notesAdapter.stableSort notesAdapter.sortComparer l
      = l.filter (fun n => !n.completed) ++ l.filter (fun n => n.completed) := by
  induction l with
  | nil => rfl
  | cons x xs ih =>
    have hstep : notesAdapter.stableSort notesAdapter.sortComparer (x :: xs)
        = notesAdapter.orderedInsert notesAdapter.sortComparer x
            (notesAdapter.stableSort notesAdapter.sortComparer xs) := rfl
    rw [hstep, ih]
    cases hx : x.completed with
    | false =>
      rw [orderedInsert_not_completed x hx]
      simp [List.filter_cons, hx]
    | true =>
      rw [orderedInsert_completed x hx _ _ (by simp) (by simp)]
      simp [List.filter_cons, hx]

/-- The entries of the collection: every one is a note of the response with its
`id` written, stored under its `_id`. -/
theorem transformResponse_entities_mem (responseData : List Note) (p : String × Note)
    (hp : p ∈ (getNotes.transformResponse responseData).entities) :
    ∃ e ∈ responseData, p.2 = { e with id := .str e._id } ∧ p.1 = e._id := by
  rcases mem_foldl_setEntity (fun n => (notesAdapter.selectId n).toJsString)
      (responseData.map (fun note : Note => ({ note with id := .str note._id } : Note))) [] p
      hp with h | ⟨h, hk⟩
  · cases h
  · obtain ⟨e, he, heq⟩ := List.mem_map.mp h
    exact ⟨e, he, heq.symm, by rw [hk, ← heq]; rfl⟩

/-- The cached entities: every one is a note of the response with its `id`
written. -/
theorem transformResponse_values_mem (responseData : List Note) (n : Note)
    (hn : n ∈ (getNotes.transformResponse responseData).values) :
    ∃ e ∈ responseData, n = { e with id := .str e._id } := by
  obtain ⟨p, hp, hpn⟩ := List.mem_map.mp hn
  obtain ⟨e, he, heq, _⟩ := transformResponse_entities_mem responseData p hp
  exact ⟨e, he, by rw [← hpn, heq]⟩

/-- The ids `transformResponse` caches: the `_id` of the cached entities that are
not completed, in the order the entities are stored, then the `_id` of the
completed ones, in that order. -/
theorem transformResponse_ids (responseData : List Note) :
    (getNotes.transformResponse responseData).ids
      = ((getNotes.transformResponse responseData).values.filter
            (fun n => !n.completed)).map (fun n => JsVal.str n._id)
        ++ ((getNotes.transformResponse responseData).values.filter
            (fun n => n.completed)).map (fun n => JsVal.str n._id) := by
  have hids : (getNotes.transformResponse responseData).ids
      = (notesAdapter.stableSort notesAdapter.sortComparer
          (getNotes.transformResponse responseData).values).map notesAdapter.selectId := rfl
  rw [hids, stableSort_sortComparer, List.map_append]
  congr 1 <;>
  · apply List.map_congr_left
    intro n hn
    obtain ⟨e, _, heq⟩ := transformResponse_values_mem responseData n (List.mem_filter.mp hn).1
    rw [heq]
    rfl

/-- The cached entities are stored in the order in which their `_id` first
occurs in the response. -/
theorem transformResponse_values_ids (responseData : List Note) :
    (getNotes.transformResponse responseData).values.map (fun n => n._id)
      = firstOccurrences (responseData.map (fun e => e._id)) := by
  have hkeys : (getNotes.transformResponse responseData).values.map (fun n => n._id)
      = (getNotes.transformResponse responseData).entities.map Prod.fst := by
    rw [EntityState.values, List.map_map]
    apply List.map_congr_left
    intro p hp
    obtain ⟨e, _, heq, hk⟩ := transformResponse_entities_mem responseData p hp
    simp only [Function.comp, heq, hk]
  have hfold := keys_foldl_setEntity (fun n => (notesAdapter.selectId n).toJsString)
    (responseData.map (fun note : Note => ({ note with id := .str note._id } : Note))) []
  rw [hkeys]
  simp only [List.map_map, List.map_nil] at hfold
  exact hfold

theorem transformResponse_ids_nodup (responseData : List Note) :
    (getNotes.transformResponse responseData).ids.Nodup := by
  have hnd : ((getNotes.transformResponse responseData).values.map (fun n => n._id)).Nodup := by
    rw [transformResponse_values_ids]
    exact nodup_foldl_firstOccurrences _ [] List.nodup_nil
  have hperm : ((getNotes.transformResponse responseData).values.filter
        (fun n => !n.completed)
      ++ (getNotes.transformResponse responseData).values.filter (fun n => n.completed)).Perm
      (getNotes.transformResponse responseData).values := by
    have h := List.filter_append_perm (fun n : Note => !n.completed)
      (getNotes.transformResponse responseData).values
    simpa using h
  have hnd2 := ((hperm.map (fun n => n._id)).nodup_iff).mpr hnd
  have hnd3 := hnd2.map (f := JsVal.str) (fun a b h => JsVal.str.inj h)
  rw [transformResponse_ids, ← List.map_append]
  simpa [List.map_map, Function.comp] using hnd3

theorem filter_map_split (p : Note → Bool) (r1 r2 r3 : List Note) (a b : Note)
    (ha : p a = true) (hb : p b = true) :
    ((r1 ++ a :: (r2 ++ b :: r3)).filter p).map (fun n => JsVal.str n._id)
      = (r1.filter p).map (fun n => JsVal.str n._id) ++ JsVal.str a._id ::
          ((r2.filter p).map (fun n => JsVal.str n._id) ++ JsVal.str b._id ::
            (r3.filter p).map (fun n => JsVal.str n._id)) := by
  simp [List.filter_append, List.filter_cons, ha, hb]

/-! ## The cached notes are keyed by `id` -/

/-- C6: for every note `e` of the list response, the collection returned by
`transformResponse` has `e._id` among its ids, and `entities[e._id]` is a note
whose `id` is `e._id` and whose `_id` is still `e._id`. -/
theorem transformResponse_keyed_by_id (responseData : List Note) (e : Note)
    (he : e ∈ responseData) :
    JsVal.str e._id ∈ (getNotes.transformResponse responseData).ids ∧
    ∃ n, (getNotes.transformResponse responseData).entity? e._id = some n ∧
      n.id = .str e._id ∧ n._id = e._id := by
  obtain ⟨n, hn, hk, hf⟩ := find_foldl_setEntity
    (fun n => (notesAdapter.selectId n).toJsString) e._id
    (responseData.map (fun note : Note => ({ note with id := .str note._id } : Note)))
    ⟨{ e with id := .str e._id }, List.mem_map.mpr ⟨e, he, rfl⟩, rfl⟩ []
  obtain ⟨m, _, hm⟩ := List.mem_map.mp hn
  subst hm
  have hk2 : m._id = e._id := hk
  have hent : (getNotes.transformResponse responseData).entity? e._id
      = some { m with id := .str m._id } := hf
  refine ⟨?_, _, hent, congrArg JsVal.str hk2, hk2⟩
  have hval : ({ m with id := .str m._id } : Note)
      ∈ (getNotes.transformResponse responseData).values := by
    obtain ⟨q, hq, hq2⟩ := Option.map_eq_some'.mp hent
    exact List.mem_map.mpr ⟨q, List.mem_of_find?_eq_some hq, hq2⟩
  rw [transformResponse_ids, ← hk2]
  cases hc : m.completed with
  | false =>
    exact List.mem_append_left _
      (List.mem_map.mpr ⟨_, List.mem_filter.mpr ⟨hval, by simp [hc]⟩, rfl⟩)
  | true =>
    exact List.mem_append_right _
      (List.mem_map.mpr ⟨_, List.mem_filter.mpr ⟨hval, by simp [hc]⟩, rfl⟩)

/-- C6, a run: the response `[{_id: "a"}, {_id: "b"}]`; `entities["b"]` has the
`id` `"b"`. -/
theorem transformResponse_keyed_by_id_witness :
    ∃ n, (getNotes.transformResponse
        [{ _id := "a", id := .undefined, completed := true, fields := [] },
          { _id := "b", id := .undefined, completed := false, fields := [] }]).entity? "b"
        = some n ∧ n.id = .str "b" ∧ n._id = "b" :=
  (transformResponse_keyed_by_id
    [{ _id := "a", id := .undefined, completed := true, fields := [] },
      { _id := "b", id := .undefined, completed := false, fields := [] }]
    { _id := "b", id := .undefined, completed := false, fields := [] } (by simp)).2

/-! ## The sort order of the cached notes -/

/-- C7: the collection `transformResponse` builds, `setAll` sorting stably by
`sortComparer`. The comparator puts a note that is not completed before a
completed one and leaves two notes with equal `completed` as they are. The
cached entities are notes of the response, stored in the order in which their
`_id` first occurs there (the response itself, when no `_id` is repeated), and
the ids are a set. For all cached entities `a` and `b`: if `a` is not completed
and `b` is, the id of `a` precedes the id of `b`; if they have equal `completed`
and `a` is stored before `b`, the id of `a` precedes the id of `b`. The
response `[{_id: "1", completed: false}, {_id: "2", completed: true}]` gives the
ids `["1", "2"]`. -/
theorem transformResponse_sorted_stable (responseData : List Note) :
    (∀ a b : Note,
      (a.completed = false → b.completed = true →
        notesAdapter.sortComparer a b = -1 ∧ notesAdapter.sortComparer b a = 1) ∧
      (a.completed = b.completed → notesAdapter.sortComparer a b = 0)) ∧
    (∀ n ∈ (getNotes.transformResponse responseData).values,
      ∃ e ∈ responseData, n = { e with id := .str e._id }) ∧
    (getNotes.transformResponse responseData).values.map (fun n => n._id)
      = firstOccurrences (responseData.map (fun e => e._id)) ∧
    ((responseData.map (fun e => e._id)).Nodup →
      (getNotes.transformResponse responseData).values
        = responseData.map (fun e => { e with id := .str e._id })) ∧
    (getNotes.transformResponse responseData).ids.Nodup ∧
    (∀ a b : Note, a ∈ (getNotes.transformResponse responseData).values →
      b ∈ (getNotes.transformResponse responseData).values →
      a.completed = false → b.completed = true →
      ∃ l1 l2 l3, (getNotes.transformResponse responseData).ids
        = l1 ++ a.id :: (l2 ++ b.id :: l3)) ∧
    (∀ (a b : Note) (r1 r2 r3 : List Note),
      (getNotes.transformResponse responseData).values = r1 ++ a :: (r2 ++ b :: r3) →
      a.completed = b.completed →
      ∃ l1 l2 l3, (getNotes.transformResponse responseData).ids
        = l1 ++ a.id :: (l2 ++ b.id :: l3)) ∧
    (getNotes.transformResponse
        [{ _id := "1", id := .undefined, completed := false, fields := [] },
          { _id := "2", id := .undefined, completed := true, fields := [] }]).ids
      = [.str "1", .str "2"] := by
  have hid : ∀ n ∈ (getNotes.transformResponse responseData).values, n.id = .str n._id := by
    intro n hn
    obtain ⟨e, _, heq⟩ := transformResponse_values_mem responseData n hn
    rw [heq]
  refine ⟨?_, transformResponse_values_mem responseData,
    transformResponse_values_ids responseData, ?_, transformResponse_ids_nodup responseData,
    ?_, ?_, rfl⟩
  · intro a b
    refine ⟨fun ha hb => ?_, fun hab => ?_⟩
    · simp [notesAdapter.sortComparer, ha, hb]
    · simp [notesAdapter.sortComparer, hab]
  · intro hnd
    have hfold := foldl_setEntity_of_nodup (fun n => (notesAdapter.selectId n).toJsString)
      (responseData.map (fun note : Note => ({ note with id := .str note._id } : Note))) []
      (by simpa [List.map_map, Function.comp, notesAdapter.selectId, JsVal.toJsString]
        using hnd)
      (by simp)
    have hent : (getNotes.transformResponse responseData).entities
        = [] ++ (responseData.map
            (fun note : Note => ({ note with id := .str note._id } : Note))).map
              (fun n => ((notesAdapter.selectId n).toJsString, n)) := hfold
    rw [EntityState.values, hent]
    simp [List.map_map, Function.comp]
  · intro a b ha hb hac hbc
    rw [hid a ha, hid b hb, transformResponse_ids]
    have ha2 : JsVal.str a._id ∈
        ((getNotes.transformResponse responseData).values.filter
          (fun n => !n.completed)).map (fun n => JsVal.str n._id) :=
      List.mem_map.mpr ⟨a, List.mem_filter.mpr ⟨ha, by simp [hac]⟩, rfl⟩
    have hb2 : JsVal.str b._id ∈
        ((getNotes.transformResponse responseData).values.filter
          (fun n => n.completed)).map (fun n => JsVal.str n._id) :=
      List.mem_map.mpr ⟨b, List.mem_filter.mpr ⟨hb, by simp [hbc]⟩, rfl⟩
    obtain ⟨s1, t1, h1⟩ := List.append_of_mem ha2
    obtain ⟨s2, t2, h2⟩ := List.append_of_mem hb2
    exact ⟨s1, t1 ++ s2, t2, by rw [h1, h2]; simp⟩
  · intro a b r1 r2 r3 hr hab
    have ha : a ∈ (getNotes.transformResponse responseData).values := by rw [hr]; simp
    have hb : b ∈ (getNotes.transformResponse responseData).values := by rw [hr]; simp
    rw [hid a ha, hid b hb, transformResponse_ids, hr]
    cases hbc : b.completed with
    | false =>
      rw [hbc] at hab
      rw [filter_map_split (fun n => !n.completed) r1 r2 r3 a b (by simp [hab]) (by simp [hbc])]
      exact ⟨(r1.filter (fun n => !n.completed)).map (fun n => JsVal.str n._id),
        (r2.filter (fun n => !n.completed)).map (fun n => JsVal.str n._id),
        (r3.filter (fun n => !n.completed)).map (fun n => JsVal.str n._id)
          ++ ((r1 ++ a :: (r2 ++ b :: r3)).filter (fun n => n.completed)).map
            (fun n => JsVal.str n._id), by simp⟩
    | true =>
      rw [hbc] at hab
      rw [filter_map_split (fun n => n.completed) r1 r2 r3 a b (by simp [hab]) (by simp [hbc])]
      exact ⟨((r1 ++ a :: (r2 ++ b :: r3)).filter (fun n => !n.completed)).map
          (fun n => JsVal.str n._id)
          ++ (r1.filter (fun n => n.completed)).map (fun n => JsVal.str n._id),
        (r2.filter (fun n => n.completed)).map (fun n => JsVal.str n._id),
        (r3.filter (fun n => n.completed)).map (fun n => JsVal.str n._id), by simp⟩

/-- C7, a run: a response of a completed note, two notes that are not, and the
completed note again, now not completed: the cached entities are the last note
under `"b"`, then `"a"` and `"c"`; the ids keep that order, each id once. In a
response without repetition the id of a note that is not completed precedes the
id of the completed one. -/
theorem transformResponse_sorted_stable_witness :
    (getNotes.transformResponse
        [{ _id := "b", id := .undefined, completed := true, fields := [] },
          { _id := "a", id := .undefined, completed := false, fields := [] },
          { _id := "c", id := .undefined, completed := false, fields := [] },
          { _id := "b", id := .undefined, completed := false, fields := [] }]).ids
      = [.str "b", .str "a", .str "c"] ∧
    ∃ l1 l2 l3, (getNotes.transformResponse
        [{ _id := "c", id := .undefined, completed := true, fields := [] },
          { _id := "a", id := .undefined, completed := false, fields := [] },
          { _id := "b", id := .undefined, completed := false, fields := [] }]).ids
      = l1 ++ JsVal.str "a" :: (l2 ++ JsVal.str "c" :: l3) :=
  ⟨rfl, (transformResponse_sorted_stable
    [{ _id := "c", id := .undefined, completed := true, fields := [] },
      { _id := "a", id := .undefined, completed := false, fields := [] },
      { _id := "b", id := .undefined, completed := false, fields := [] }]).2.2.2.2.2.1
    { _id := "a", id := .str "a", completed := false, fields := [] }
    { _id := "c", id := .str "c", completed := true, fields := [] }
    (by simp [getNotes.transformResponse, notesAdapter.setAll, EntityState.values,
      notesAdapter.setEntity, notesAdapter.selectId, JsVal.toJsString])
    (by simp [getNotes.transformResponse, notesAdapter.setAll, EntityState.values,
      notesAdapter.setEntity, notesAdapter.selectId, JsVal.toJsString])
    rfl rfl⟩

/-! ## Cache tags -/

/-- C9: for a result, `providesTags` returns the tag of the whole list followed
by one tag `("Note", id)` for every id of `result.ids`, in the same order and
nothing else, so `1 + result.ids.length` tags; with no result, or a result
whose `ids` are empty, it returns the tag of the whole list alone. -/
theorem providesTags_list_then_ids (error arg : JsVal) :
    (∀ result : EntityState,
      getNotes.providesTags (some result) error arg
        = listTag :: result.ids.map (fun id => ({ type := "Note", id := id } : Tag)) ∧
      (getNotes.providesTags (some result) error arg).length = 1 + result.ids.length ∧
      (result.ids = [] → getNotes.providesTags (some result) error arg = [listTag])) ∧
    getNotes.providesTags none error arg = [listTag] := by
  refine ⟨fun result => ⟨rfl, ?_, ?_⟩, rfl⟩
  · simp [getNotes.providesTags, Nat.add_comm]
  · intro h
    simp [getNotes.providesTags, h]

/-- C9, a run: the tags of the collection built from a response of two notes. -/
theorem providesTags_list_then_ids_witness :
    getNotes.providesTags (some { ids := [], entities := [] }) .undefined .undefined
      = [listTag] ∧
    getNotes.providesTags
      (some (getNotes.transformResponse
        [{ _id := "2", id := .undefined, completed := true, fields := [] },
          { _id := "1", id := .undefined, completed := false, fields := [] }]))
      .undefined .undefined
      = [listTag, { type := "Note", id := .str "1" }, { type := "Note", id := .str "2" }] :=
  ⟨((providesTags_list_then_ids .undefined .undefined).1
      { ids := [], entities := [] }).2.2 rfl, rfl⟩

/-- C8, as the code has it: for every result and error and every argument other
than `undefined` and `null`, `addNewNote` invalidates the one tag
`("Note", "LIST")`, and `updateNote` and `deleteNote` each invalidate the one
tag `("Note", arg.id)` and no other; that tag is the tag of the whole list only
when `arg.id` is `"LIST"`. -/
theorem invalidatesTags_exact (result error arg : JsVal) (harg : arg.isNullish = false) :
    addNewNote.invalidatesTags = [{ type := "Note", id := .str "LIST" }] ∧
    updateNote.invalidatesTags result error arg
      = .ok [{ type := "Note", id := arg.get "id" }] ∧
    deleteNote.invalidatesTags result error arg
      = .ok [{ type := "Note", id := arg.get "id" }] ∧
    (∀ t : Tag, t ∈ [({ type := "Note", id := arg.get "id" } : Tag)] →
      t.type = "Note" ∧ t.id = arg.get "id") ∧
    (listTag ∈ [({ type := "Note", id := arg.get "id" } : Tag)]
      ↔ arg.get "id" = .str "LIST") := by
  refine ⟨rfl, ?_, ?_, ?_, ?_⟩
  · simp [updateNote.invalidatesTags, JsVal.getProp, harg, bind, Except.bind, pure, Except.pure]
  · simp [deleteNote.invalidatesTags, JsVal.getProp, harg, bind, Except.bind, pure, Except.pure]
  · intro t ht
    rw [List.mem_singleton] at ht
    subst ht
    exact ⟨rfl, rfl⟩
  · rw [List.mem_singleton]
    constructor
    · intro h
      exact (congrArg Tag.id h).symm
    · intro h
      rw [h]
      rfl

/-- C8, a run: updating and deleting the note with id `"42"`. -/
theorem invalidatesTags_exact_witness :
    updateNote.invalidatesTags .undefined .undefined
        (.obj [("id", .str "42"), ("completed", .bool true)])
      = .ok [{ type := "Note", id := .str "42" }] ∧
    deleteNote.invalidatesTags .undefined .undefined
        (.obj [("id", .str "42"), ("completed", .bool true)])
      = .ok [{ type := "Note", id := .str "42" }] :=
  ⟨(invalidatesTags_exact .undefined .undefined
      (.obj [("id", .str "42"), ("completed", .bool true)]) rfl).2.1,
    (invalidatesTags_exact .undefined .undefined
      (.obj [("id", .str "42"), ("completed", .bool true)]) rfl).2.2.1⟩

/-- C8, where it fails: with the argument `undefined` (a mutation triggered with
no argument) the read `arg.id` throws, and `updateNote` and `deleteNote` return
no tag list. -/
theorem invalidatesTags_undefined_arg :
    updateNote.invalidatesTags .undefined (.obj [("status", .num 400)]) .undefined
      = .error .TypeError ∧
    deleteNote.invalidatesTags .undefined (.obj [("status", .num 400)]) .undefined
      = .error .TypeError :=
  ⟨rfl, rfl⟩

/-- An argument on which the read `arg.id` throws (`undefined`, `null`):
`updateNote` and `deleteNote` throw with it. -/
theorem invalidatesTags_nullish_arg (result error arg : JsVal) (harg : arg.isNullish = true) :
    updateNote.invalidatesTags result error arg = .error .TypeError ∧
    deleteNote.invalidatesTags result error arg = .error .TypeError := by
  constructor
  · simp [updateNote.invalidatesTags, JsVal.getProp, harg, bind, Except.bind]
  · simp [deleteNote.invalidatesTags, JsVal.getProp, harg, bind, Except.bind]

/-! ## `validateStatus` -/

/-- C10, as the code has it: for a payload that is not `undefined` or `null`, and
for every payload when the status is not 200, `validateStatus` returns a
boolean, and it is `true` exactly when the status is 200 and the `isError` of
the payload is not truthy (absent, or there with a falsy value). -/
theorem validateStatus_iff (response : Response) (payload : JsVal)
    (h : payload.isNullish = false ∨ response.status ≠ 200) :
    ∃ ok : Bool, getNotes.validateStatus response payload = .ok ok ∧
      (ok = true ↔ response.status = 200 ∧ (payload.get "isError").truthy = false) := by
  by_cases hs : response.status = 200
  · have hp : payload.isNullish = false := h.resolve_right (fun hne => hne hs)
    refine ⟨!(payload.get "isError").truthy, ?_, ?_⟩
    · simp [getNotes.validateStatus, hs, JsVal.getProp, hp, bind, Except.bind, pure,
        Except.pure]
    · simp [hs]
  · exact ⟨false, by simp [getNotes.validateStatus, hs, pure, Except.pure], by simp [hs]⟩

/-- C10, runs: a 200 response without the flag is successful, one with a truthy
flag is not. -/
theorem validateStatus_iff_witness :
    getNotes.validateStatus { status := 200 } (.obj [("message", .str "ok")]) = .ok true ∧
    getNotes.validateStatus { status := 200 } (.obj [("isError", .bool true)]) = .ok false ∧
    ∃ ok : Bool,
      getNotes.validateStatus { status := 200 } (.obj [("isError", .num 0)]) = .ok ok ∧
      (ok = true ↔ (200 : Int) = 200 ∧
        ((JsVal.obj [("isError", .num 0)]).get "isError").truthy = false) :=
  ⟨rfl, rfl, validateStatus_iff { status := 200 } (.obj [("isError", .num 0)]) (Or.inl rfl)⟩

/-- C10, where it fails: a 200 response whose payload has the flag, with the
value `false`, is treated as successful, though the flag is not absent. -/
theorem validateStatus_flag_present_false :
    getNotes.validateStatus { status := 200 } (.obj [("isError", .bool false)]) = .ok true ∧
    (JsVal.obj [("isError", .bool false)]).hasOwn "isError" = true ∧
    ¬ (getNotes.validateStatus { status := 200 } (.obj [("isError", .bool false)]) = .ok true ↔
        ((200 : Int) = 200 ∧ (JsVal.obj [("isError", .bool false)]).hasOwn "isError" = false)) :=
  ⟨rfl, rfl, fun h => Bool.noConfusion ((h.mp rfl).2.symm.trans rfl)⟩

/-- A 200 response with a `null` payload: `validateStatus` throws. -/
theorem validateStatus_null_payload :
    getNotes.validateStatus { status := 200 } .null = .error .TypeError := rfl
